import Mathlib

/-!
Shallow embedding of the pysirix contacts service (src/src/app.py and
src/src/schemas.py) for verification of its specification.

The HTTP layer (FastAPI) and the SirixDB store are external collaborators.
Pure request-handling logic — revision resolution (parse_revision), query
construction (the JSONiq filter strings), the semantics of the generated
queries (predicate evaluation, the deleted-only scan filter, the forward
deduplication step), document validation (Contact.check_not_empty) and the
mutation endpoints — is translated directly from the Python source.
The store primitives that the endpoints call (insert_one, update_by_key,
resource.delete) live in the pysirix library, outside src/; they are
modelled from the spec's collaborator contract (section 6) where a claim
depends on them, and each such definition is marked in its doc comment.
-/

namespace Contacts

/-- Error taxonomy of the service, one constructor per taxonomy entry of the
spec (section 7).  In the Python source these surface as distinct catchable
exceptions / status codes: pydantic AssertionError (422) for
invalidDocument, ValueError from datetime.strptime for
invalidRevisionFormat, HTTPException 400 for emptyQueryRejected,
SirixServerError mapped to 409 for concurrentModification. -/
inductive AppError where
  | invalidDocument
  | invalidRevisionFormat
  | emptyQueryRejected
  | notFound
  | concurrentModification
  deriving DecidableEq

/-- JSON scalar values as stored in the contacts resource.  Contact fields
are strings or JSON null; other shapes can occur in principle in a JSON
store, and the generated query's typeswitch treats them uniformly. -/
inductive JsonValue where
  | str (s : String)
  | num (n : Int)
  | boolean (b : Bool)
  | null
  deriving DecidableEq

/-- A JSON object scanned by a query: association list from field names to
values.  A field absent from the list is a missing field. -/
def Doc : Type := List (String × JsonValue)

instance : DecidableEq Doc :=
  inferInstanceAs (DecidableEq (List (String × JsonValue)))

/-- Query term, from schemas.QueryTerm: the term to match, whether the match
is fuzzy (substring) instead of exact, and the field to match against. -/
structure QueryTerm where
  term : String
  fuzzy : Bool
  field : String
  deriving DecidableEq

/-- Case-sensitive substring containment: pat occurs contiguously in s.
This is the semantics of the XQuery contains() call emitted for fuzzy
terms. -/
def strContains (s pat : String) : Bool :=
  decide (List.IsInfix pat.toList s.toList)

/-- Semantics of the per-term filter emitted by both search endpoints
(app.py, the query_list loop), read with the interpolated term text as
inert data.  For a fuzzy term the emitted code is a typeswitch that
applies contains() when the field value is a string and returns false()
otherwise; for an exact term it is an eq comparison of the field value
against the quoted term.  A missing field yields the empty sequence, which
satisfies neither; a non-string value satisfies neither branch for the
data this service stores.  Scope of adequacy: the interpolation is
verbatim, so this is the transmitted clause's meaning only when the term
value and field name contain no single quote; a quote-bearing term
changes the structure of the emitted string (C10, and the C8
counterexample), and this function then describes the literal-term
predicate the transmitted query fails to be. -/
def evalTerm (t : QueryTerm) (d : Doc) : Bool :=
  match List.lookup t.field d with
  | some (JsonValue.str s) => if t.fuzzy then strContains s t.term else s == t.term
  | some _ => false
  | none => false

/-- Conjunction of all term filters, the semantics of joining the emitted
clauses with the and keyword; an empty term list emits no where clause, so
every document passes (for the empty list this is exact with no
quoting caveat).  For non-empty lists it inherits evalTerm's scope: it is
the transmitted filter's semantics only for term lists whose text does not
break the quoting. -/
def evalFilter (terms : List QueryTerm) (d : Doc) : Bool :=
  terms.all fun t => evalTerm t d

/-- Single-quote character, used by the f-strings in app.py to delimit the
interpolated term value. -/
def sq : String := String.singleton (Char.ofNat 39)

/-- Exact-match clause emitted for a non-fuzzy term, verbatim from
app.py. -/
def exactClause (t : QueryTerm) : String :=
  "$i=>" ++ t.field ++ " eq " ++ sq ++ t.term ++ sq

/-- Fuzzy-match clause emitted for a fuzzy term, verbatim from app.py. -/
def fuzzyClause (t : QueryTerm) : String :=
  "(typeswitch($i=>" ++ t.field ++ ") " ++
    "case xs:string return contains(xs:string($i=>" ++ t.field ++ "), " ++
    sq ++ t.term ++ sq ++ ")" ++ " default return false())"

/-- Clause emitted for one query term (the if query_term.fuzzy branch of the
query_list loop). -/
def termClause (t : QueryTerm) : String :=
  if t.fuzzy then fuzzyClause t else exactClause t

/-- The filter expression sent to the store: the per-term clauses joined
with the and keyword, exactly as built by both search endpoints. -/
def query_filter (terms : List QueryTerm) : String :=
  String.intercalate " and " (terms.map termClause)

/-- Opaque stand-in for a Python datetime value produced by
datetime.strptime. -/
structure PyDateTime where
  year : Nat
  month : Nat
  day : Nat
  hour : Nat
  minute : Nat
  second : Nat
  microsecond : Nat
  deriving DecidableEq

/-- Timestamp half of parse_revision: Python evaluates
(revision_timestamp and strptime(...)) or None, so a None or empty-string
timestamp is falsey and yields None, a non-empty one is parsed, and a
strptime failure raises (invalidRevisionFormat).  The strptime function
itself is Python library code, passed here as a parameter. -/
def parseTs (strptime : String → Option PyDateTime) :
    Option String → Except AppError (Option (Nat ⊕ PyDateTime))
  | none => .ok none
  | some s =>
      if s = "" then .ok none
      else
        match strptime s with
        | none => .error .invalidRevisionFormat
        | some d => .ok (some (Sum.inr d))

/-- parse_revision from app.py: revision_id or ((revision_timestamp and
strptime(revision_timestamp, fmt)) or None).  A non-None, non-zero
revision_id is truthy and is returned; otherwise the timestamp expression
decides. -/
def parse_revision (strptime : String → Option PyDateTime)
    (revision_id : Option Nat) (revision_timestamp : Option String) :
    Except AppError (Option (Nat ⊕ PyDateTime)) :=
  match revision_id with
  | some n => if n ≠ 0 then .ok (some (Sum.inl n)) else parseTs strptime revision_timestamp
  | none => parseTs strptime revision_timestamp

/-- Which resource-opening expression search_contacts chooses: the if
revision_id / elif revision_timestamp / else chain in app.py.  byId carries
the jn:doc sequence number, byTimestamp the jn:open dateTime argument,
current the bare dot. -/
inductive OpenResource where
  | byId (n : Nat)
  | byTimestamp (ts : String)
  | current
  deriving DecidableEq

/-- Timestamp half of the open-resource chain (the elif branch with Python
truthiness: an empty string falls through to the bare dot). -/
def openTs : Option String → OpenResource
  | none => .current
  | some s => if s = "" then .current else .byTimestamp s

/-- The resource choice made by search_contacts for its revision
parameters. -/
def open_resource (revision_id : Option Nat) (revision_timestamp : Option String) :
    OpenResource :=
  match revision_id with
  | some n => if n ≠ 0 then .byId n else openTs revision_timestamp
  | none => openTs revision_timestamp

/-- One row of the current revision as scanned by search_contacts: the
document together with its node key and content hash, as returned by the
emitted query's return clause. -/
structure CurrentRow where
  doc : Doc
  nodeKey : Nat
  hash : String
  deriving DecidableEq

/-- search_contacts from app.py: an empty term list is rejected with HTTP
400 (emptyQueryRejected, directing callers to /contact/list); otherwise the
current revision's rows are filtered by the conjunction of the term
clauses. -/
def search_contacts (terms : List QueryTerm) (rows : List CurrentRow) :
    Except AppError (List CurrentRow) :=
  if terms.length = 0 then .error .emptyQueryRejected
  else .ok (rows.filter fun r => evalFilter terms r.doc)

/-- The filter expression search_contacts actually transmits to the store
for a given term list (after the same empty-list rejection): the endpoint's
whole communication of the predicate is this string, so two term lists with
equal filter strings are indistinguishable to the store. -/
def search_contacts_query (terms : List QueryTerm) : Except AppError String :=
  if terms.length = 0 then .error .emptyQueryRejected
  else .ok (query_filter terms)

/-- One revision-state of a document identity as visited by the all-time
scan: its document value, its content hash (sdb:hash), and whether the
identity is in deleted state at that revision (sdb:is-deleted). -/
structure RevEntry where
  doc : Doc
  hash : String
  isDeleted : Bool
  deriving DecidableEq

/-- The deleted-scan where clause of search_contacts_all_time: when
existing is false the emitted query keeps only entries with
sdb:is-deleted($i); when existing is true no clause is emitted and every
entry passes. -/
def scanFilter (existing : Bool) (e : RevEntry) : Bool :=
  if existing then true else e.isDeleted

/-- The deduplicate expression of search_contacts_all_time, applied to the
entry at index i (hash h) of an identity's chronological hash sequence hs:
the entry is returned if it has no future version (jn:future is empty) or
its hash differs from the future version's hash, and dropped otherwise. -/
def forwardKeepAt (hs : List String) (i : Nat) (h : String) : Bool :=
  match hs.get? (i + 1) with
  | none => true
  | some h2 => h != h2

/-- Indices of an identity's chronological revision hash sequence kept by
the forward deduplication step. -/
def forwardKeptIndices (hs : List String) : List Nat :=
  (hs.enum.filter fun p => forwardKeepAt hs p.1 p.2).map Prod.fst

/-- search_contacts_all_time from app.py, for one document identity whose
chronological revision states are es: the scan visits every revision state,
the where clauses apply the deleted-scan filter and then the term filter,
and the return clause applies the forward deduplication against the
identity's full hash timeline.  Results are returned with their revision
index. -/
def search_contacts_all_time (terms : List QueryTerm) (existing : Bool)
    (es : List RevEntry) : List (Nat × RevEntry) :=
  ((es.enum.filter fun p => scanFilter existing p.2 && evalFilter terms p.2.doc).filter
    fun p => forwardKeepAt (es.map RevEntry.hash) p.1 p.2.hash)

/-- Contact document from schemas.Contact: four optional string fields. -/
structure RawContact where
  name : Option String
  phone : Option String
  email : Option String
  address : Option String
  deriving DecidableEq

/-- Python truthiness of an optional string field: None and the empty
string are falsey. -/
def truthyField : Option String → Bool
  | none => false
  | some s => s != ""

/-- Contact.check_not_empty from schemas.py: at least one field value must
be truthy (assert any(fields.values())). -/
def check_not_empty (c : RawContact) : Bool :=
  truthyField c.name || truthyField c.phone || truthyField c.email ||
    truthyField c.address

/-- Pydantic validation of a request body against the Contact schema, which
FastAPI runs before either mutation handler executes: a contact failing
check_not_empty is rejected (422, the invalidDocument condition) and the
handler body — hence any store call — never runs. -/
def parse_contact (c : RawContact) : Except AppError RawContact :=
  if check_not_empty c then .ok c else .error .invalidDocument

/-- One document of the store's current revision: its node key, its
contact value and its content hash. -/
structure StoredDoc where
  key : Nat
  contact : RawContact
  hash : String
  deriving DecidableEq

/-- Current state of the versioned store: the documents live in the latest
revision, and the latest revision number. -/
structure Store where
  docs : List StoredDoc
  revision : Nat
  deriving DecidableEq

/-- Store-side failure of a conditional mutation. -/
inductive StoreErr where
  | preconditionFailed
  | notFound
  deriving DecidableEq

/-- The document currently stored under a key, if any. -/
def Store.findCurrent (st : Store) (key : Nat) : Option StoredDoc :=
  st.docs.find? fun d => d.key == key

/-- Modelled from the spec: the collaborator primitive remove(identity,
expectedHash?) of section 6 (pysirix resource.delete, outside src/).  An
absent identity fails with notFound; a provided expectedHash differing from
the current content hash fails with preconditionFailed; otherwise the
document is removed as of a new revision. -/
def Store.remove (st : Store) (key : Nat) (expectedHash : Option String) :
    Except StoreErr Store :=
  match st.findCurrent key with
  | none => .error .notFound
  | some d =>
      match expectedHash with
      | some h =>
          if h = d.hash then
            .ok ⟨st.docs.filter (fun e => e.key != key), st.revision + 1⟩
          else .error .preconditionFailed
      | none => .ok ⟨st.docs.filter (fun e => e.key != key), st.revision + 1⟩

/-- Modelled from the spec: the collaborator primitive mutate(identity,
Document, expectedHash?) of section 6 (pysirix update_by_key, outside
src/).  Same precondition discipline as remove; on success the document
under the key is replaced and a new revision created, its new hash computed
by the store from the new content. -/
def Store.mutate (st : Store) (key : Nat) (c : RawContact) (newHash : String)
    (expectedHash : Option String) : Except StoreErr Store :=
  match st.findCurrent key with
  | none => .error .notFound
  | some d =>
      match expectedHash with
      | some h =>
          if h = d.hash then
            .ok ⟨st.docs.map (fun e => if e.key == key then ⟨key, c, newHash⟩ else e),
              st.revision + 1⟩
          else .error .preconditionFailed
      | none =>
          .ok ⟨st.docs.map (fun e => if e.key == key then ⟨key, c, newHash⟩ else e),
            st.revision + 1⟩

/-- Fresh node key assigned by the store at insert time. -/
def Store.freshKey (st : Store) : Nat :=
  (st.docs.map StoredDoc.key).foldr Nat.max 0 + 1

/-- Modelled from the spec: the collaborator primitive insert(Document) of
section 6 (pysirix insert_one, outside src/): the document is stored under
a fresh key as of a new revision. -/
def Store.insertDoc (st : Store) (c : RawContact) (newHash : String) : Store :=
  ⟨st.docs ++ [⟨st.freshKey, c, newHash⟩], st.revision + 1⟩

/-- new_contact from app.py (POST /contact/new): the validated contact is
inserted with insert_one.  Validation failure surfaces before any store
call, so an error result leaves the store untouched.  The store's hash
function is a parameter. -/
def new_contact (hashFn : RawContact → String) (contact : RawContact)
    (st : Store) : Except AppError Store :=
  match parse_contact contact with
  | .error e => .error e
  | .ok c => .ok (st.insertDoc c (hashFn c))

/-- update_contact from app.py (PUT /contact/\x7bcontact_key\x7d): the
endpoint takes only the key and the new contact body — no hash of any kind —
and calls update_by_key unconditionally against the latest revision.  A
store-side notFound (no such key) is the only possible failure after
validation. -/
def update_contact (hashFn : RawContact → String) (contact_key : Nat)
    (contact : RawContact) (st : Store) : Except AppError Store :=
  match parse_contact contact with
  | .error e => .error e
  | .ok c =>
      match st.mutate contact_key c (hashFn c) none with
      | .ok st2 => .ok st2
      | .error _ => .error .notFound

/-- delete_contact from app.py (DELETE /contact/\x7bcontact_key\x7d): the
hash query parameter is required, and is always passed to resource.delete;
a SirixServerError (hash mismatch, or no such key) is caught and mapped to
status 409, leaving the store unchanged, and success returns 204 with the
document removed. -/
def delete_contact (contact_key : Nat) (hash : String) (st : Store) :
    Nat × Store :=
  match st.remove contact_key (some hash) with
  | .ok st2 => (204, st2)
  | .error _ => (409, st)

theorem enum_get? {α : Type} {l : List α} {i : Nat} {x : α} :
    (i, x) ∈ l.enum ↔ l.get? i = some x := by
  rw [List.mk_mem_enum_iff_getElem?, List.get?_eq_getElem?]

theorem forwardKeepAt_eq_true {hs : List String} {i : Nat} {h : String} :
    forwardKeepAt hs i h = true ↔
      (hs.get? (i + 1) = none ∨ hs.get? (i + 1) ≠ some h) := by
  cases hnext : hs.get? (i + 1) with
  | none =>
      rw [List.get?_eq_getElem?] at hnext
      simp [forwardKeepAt, hnext]
  | some h2 =>
      rw [List.get?_eq_getElem?] at hnext
      simp [forwardKeepAt, hnext, bne_iff_ne, ne_comm]

/-- C3: current-state search called with an empty term list fails with the
emptyQueryRejected condition (HTTP 400, directing callers to /contact/list),
while the all-time search treats the empty term list as the always-true
predicate: every document passes the filter, and the scan's results are
exactly the scanned revisions (deleted-scan filter and forward
deduplication applied) with no predicate-based exclusion. -/
theorem C3_empty_query_asymmetry (rows : List CurrentRow) (existing : Bool)
    (es : List RevEntry) (d : Doc) :
    search_contacts [] rows = .error .emptyQueryRejected ∧
    evalFilter [] d = true ∧
    search_contacts_all_time [] existing es =
      (es.enum.filter fun p => scanFilter existing p.2).filter
        (fun p => forwardKeepAt (es.map RevEntry.hash) p.1 p.2.hash) := by
  refine ⟨rfl, rfl, ?_⟩
  rw [search_contacts_all_time]
  congr 1
  apply List.filter_congr
  intro p _
  simp [evalFilter]

/-- C3 witness: concrete empty-term calls. -/
theorem C3_witness :
    search_contacts [] [] = .error .emptyQueryRejected ∧
    evalFilter [] [("x", JsonValue.str "y")] = true :=
  ⟨(C3_empty_query_asymmetry [] true [] []).1,
   (C3_empty_query_asymmetry [] true [] [("x", JsonValue.str "y")]).2.1⟩

/-- C4: the all-time search deduplication is the forward-mode reduction: an
index of an identity's chronological hash sequence is kept if and only if
it has no later entry or its hash differs from the immediately following
entry's hash; on the sequence [h1, h1, h2, h2, h2, h3] exactly the indices
[1, 4, 5] are kept. -/
theorem C4_forward_dedup :
    (∀ (hs : List String) (i : Nat) (h : String), hs.get? i = some h →
      (i ∈ forwardKeptIndices hs ↔
        (hs.get? (i + 1) = none ∨ hs.get? (i + 1) ≠ some h))) ∧
    forwardKeptIndices ["h1", "h1", "h2", "h2", "h2", "h3"] = [1, 4, 5] := by
  constructor
  · intro hs i h hget
    rw [forwardKeptIndices]
    constructor
    · intro hmem
      rw [List.mem_map] at hmem
      obtain ⟨p, hp, hfst⟩ := hmem
      rw [List.mem_filter] at hp
      have hpair : hs.get? p.1 = some p.2 := enum_get?.mp hp.1
      rw [hfst, hget] at hpair
      have hsnd : p.2 = h := by
        injection hpair with hh
        exact hh.symm
      have hkeep := hp.2
      rw [hfst, hsnd] at hkeep
      exact forwardKeepAt_eq_true.mp hkeep
    · intro hcond
      rw [List.mem_map]
      refine ⟨(i, h), ?_, rfl⟩
      rw [List.mem_filter]
      exact ⟨enum_get?.mpr hget, forwardKeepAt_eq_true.mpr hcond⟩
  · decide

/-- C4 witness: the characterization applied to a concrete sequence. -/
theorem C4_witness :
    (1 ∈ forwardKeptIndices ["a", "a", "b"]) ↔
      (["a", "a", "b"].get? 2 = none ∨ ["a", "a", "b"].get? 2 ≠ some "a") :=
  C4_forward_dedup.1 ["a", "a", "b"] 1 "a" rfl

/-- C5: a non-null, non-zero revisionId wins over any revisionTimestamp, in
parse_revision (used by the list, view and history endpoints) and in the
resource-opening chain of search_contacts alike: the result is the
sequence-number reference, whatever the timestamp and whatever the parser
would do with it. -/
theorem C5_revision_id_precedence (strptime : String → Option PyDateTime)
    (ts : Option String) (n : Nat) (hn : n ≠ 0) :
    parse_revision strptime (some n) ts = .ok (some (Sum.inl n)) ∧
    open_resource (some n) ts = .byId n := by
  constructor
  · simp [parse_revision, hn]
  · simp [open_resource, hn]

/-- C5 witness: resolve(revisionId=5, revisionTimestamp=2020-01-01...)
returns the sequence-number reference for 5, even under a parser rejecting
every string, so the timestamp is never consulted. -/
theorem C5_witness :
    parse_revision (fun _ => none) (some 5) (some "2020-01-01T00:00:00.000000") =
        .ok (some (Sum.inl 5)) ∧
    open_resource (some 5) (some "2020-01-01T00:00:00.000000") = .byId 5 :=
  C5_revision_id_precedence (fun _ => none) (some "2020-01-01T00:00:00.000000") 5
    (by decide)

/-- C6: with revisionId absent or zero and a non-empty timestamp string,
revision resolution fails with invalidRevisionFormat exactly when the
fixed-format parse fails, returns the parsed value as a timestamp reference
when it succeeds, and the condition is distinct from every other entry of
the error taxonomy. -/
theorem C6_timestamp_parse (strptime : String → Option PyDateTime)
    (rid : Option Nat) (s : String) (hrid : rid = none ∨ rid = some 0)
    (hs : s ≠ "") :
    (strptime s = none →
      parse_revision strptime rid (some s) = .error .invalidRevisionFormat) ∧
    (∀ d, strptime s = some d →
      parse_revision strptime rid (some s) = .ok (some (Sum.inr d))) ∧
    AppError.invalidRevisionFormat ≠ AppError.invalidDocument ∧
    AppError.invalidRevisionFormat ≠ AppError.emptyQueryRejected ∧
    AppError.invalidRevisionFormat ≠ AppError.notFound ∧
    AppError.invalidRevisionFormat ≠ AppError.concurrentModification := by
  have hbase : parse_revision strptime rid (some s) = parseTs strptime (some s) := by
    rcases hrid with h0 | h0 <;> subst h0 <;> simp [parse_revision]
  refine ⟨?_, ?_, by decide, by decide, by decide, by decide⟩
  · intro hnone
    rw [hbase]
    simp [parseTs, hs, hnone]
  · intro d hd
    rw [hbase]
    simp [parseTs, hs, hd]

/-- C6 witness: a string the parser rejects fails with
invalidRevisionFormat. -/
theorem C6_witness :
    parse_revision (fun _ => none) none (some "not-a-date") =
      .error .invalidRevisionFormat :=
  (C6_timestamp_parse (fun _ => none) none "not-a-date" (Or.inl rfl) (by decide)).1 rfl

/-- C9: with revisionId null or zero and revisionTimestamp the empty
string, resolution returns the latest sentinel: the empty string is falsey
in Python and short-circuits the conjunction, so no parse is attempted
(the result is the same for every parser) and no error raised. -/
theorem C9_empty_timestamp (strptime : String → Option PyDateTime)
    (rid : Option Nat) (hrid : rid = none ∨ rid = some 0) :
    parse_revision strptime rid (some "") = .ok none := by
  rcases hrid with h | h <;> subst h <;> simp [parse_revision, parseTs]

/-- C9 witness: empty-string timestamp under a parser rejecting every
string, including the empty one, still resolves to latest. -/
theorem C9_witness : parse_revision (fun _ => none) none (some "") = .ok none :=
  C9_empty_timestamp (fun _ => none) none (Or.inl rfl)

/-- C10: field names and term values are interpolated verbatim into the
filter string.  A single exact term whose value contains a single quote
compiles to the very same filter string as a two-term query over different
literal values — the term text alters the query's structure — and on a
concrete document the AND-of-exact predicate over the literal term value
rejects what the transmitted query accepts. -/
theorem C10_injection :
    strContains
        (QueryTerm.term ⟨"a" ++ sq ++ " and $i=>g eq " ++ sq ++ "b", false, "f"⟩)
        sq = true ∧
    query_filter [⟨"a" ++ sq ++ " and $i=>g eq " ++ sq ++ "b", false, "f"⟩] =
      query_filter [⟨"a", false, "f"⟩, ⟨"b", false, "g"⟩] ∧
    evalFilter [⟨"a" ++ sq ++ " and $i=>g eq " ++ sq ++ "b", false, "f"⟩]
        [("f", JsonValue.str "a"), ("g", JsonValue.str "b")] = false ∧
    evalFilter [⟨"a", false, "f"⟩, ⟨"b", false, "g"⟩]
        [("f", JsonValue.str "a"), ("g", JsonValue.str "b")] = true :=
  ⟨by decide, by decide, by decide, by decide⟩

/-- C1 counterexample: with existing true (includeDeleted false) the
emitted query contains no deleted-scan clause at all, so the scan covers
live-state and deleted-state revisions at once: on a timeline whose first
revision is live and whose second is deleted, the all-time search with
existing true and no terms returns both, although the claim requires
deleted revisions to be excluded from that scan and asserts that no flag
value scans live and deleted together. -/
theorem C1_counterexample :
    (0, (⟨[("name", JsonValue.str "A")], "h1", false⟩ : RevEntry)) ∈
        search_contacts_all_time [] true
          [⟨[("name", JsonValue.str "A")], "h1", false⟩,
            ⟨[("name", JsonValue.str "B")], "h2", true⟩] ∧
    (1, (⟨[("name", JsonValue.str "B")], "h2", true⟩ : RevEntry)) ∈
        search_contacts_all_time [] true
          [⟨[("name", JsonValue.str "A")], "h1", false⟩,
            ⟨[("name", JsonValue.str "B")], "h2", true⟩] ∧
    RevEntry.isDeleted ⟨[("name", JsonValue.str "B")], "h2", true⟩ = true ∧
    RevEntry.isDeleted ⟨[("name", JsonValue.str "A")], "h1", false⟩ = false :=
  ⟨by decide, by decide, rfl, rfl⟩

/-- C1 amended: the existing flag selects between scanning only
deleted-state revisions (existing false, where sdb:is-deleted) and
scanning every revision with no deleted-based exclusion (existing true, no
clause emitted), so the latter covers live and deleted states together. -/
theorem C1_deleted_scan_modes (terms : List QueryTerm) (es : List RevEntry) :
    (∀ p ∈ search_contacts_all_time terms false es, p.2.isDeleted = true) ∧
    search_contacts_all_time terms true es =
      (es.enum.filter fun p => evalFilter terms p.2.doc).filter
        (fun p => forwardKeepAt (es.map RevEntry.hash) p.1 p.2.hash) := by
  constructor
  · intro p hp
    rw [search_contacts_all_time, List.mem_filter] at hp
    have h1 := (List.mem_filter.mp hp.1).2
    simp only [scanFilter, if_neg Bool.false_ne_true, Bool.and_eq_true] at h1
    exact h1.1
  · rfl

/-- C1 witness: a deleted-only scan's hit is in deleted state. -/
theorem C1_witness :
    RevEntry.isDeleted ⟨[("name", JsonValue.str "B")], "h", true⟩ = true :=
  (C1_deleted_scan_modes [] [⟨[("name", JsonValue.str "B")], "h", true⟩]).1
    (0, ⟨[("name", JsonValue.str "B")], "h", true⟩) (by decide)

/-- C2 counterexample: the update endpoint takes only the key and the new
contact body — there is no expectedHash parameter — and applies the
mutation unconditionally.  Concretely: the stored document has content
hash H2, the caller's stale hash H1 differs from it, and update
nevertheless succeeds and creates a new revision, where the claim requires
an update presenting a stale hash to fail with no new revision. -/
theorem C2_counterexample :
    (Store.findCurrent ⟨[⟨1, ⟨some "A", none, none, none⟩, "H2"⟩], 5⟩ 1).map
        StoredDoc.hash = some "H2" ∧
    ("H1" : String) ≠ "H2" ∧
    update_contact (fun _ => "H3") 1 ⟨some "B", none, none, none⟩
        ⟨[⟨1, ⟨some "A", none, none, none⟩, "H2"⟩], 5⟩ =
      .ok ⟨[⟨1, ⟨some "B", none, none, none⟩, "H3"⟩], 6⟩ :=
  ⟨rfl, by decide, rfl⟩

/-- C2 amended: the delete endpoint requires an expectedHash (it is not
optional): when the current document's hash differs from it, or no document
exists under the key, delete returns 409 (the concurrent-modification
signal) and the store is unchanged; when it matches, delete returns 204,
removes the document and creates a new revision.  The update endpoint
accepts no expectedHash at all and, once the body validates and the key
exists, applies the mutation unconditionally against the latest revision
(last-writer-wins). -/
theorem C2_hash_precondition (st : Store) (key : Nat) (h : String)
    (hashFn : RawContact → String) (raw c : RawContact) :
    (∀ d, st.findCurrent key = some d → d.hash ≠ h →
      delete_contact key h st = (409, st)) ∧
    (∀ d, st.findCurrent key = some d → d.hash = h →
      delete_contact key h st =
        (204, ⟨st.docs.filter (fun e => e.key != key), st.revision + 1⟩)) ∧
    (st.findCurrent key = none → delete_contact key h st = (409, st)) ∧
    (parse_contact raw = .ok c → ∀ d, st.findCurrent key = some d →
      update_contact hashFn key raw st =
        .ok ⟨st.docs.map (fun e => if e.key == key then ⟨key, c, hashFn c⟩ else e),
          st.revision + 1⟩) := by
  refine ⟨?_, ?_, ?_, ?_⟩
  · intro d hd hne
    simp only [delete_contact, Store.remove, hd]
    rw [if_neg (fun hh => hne hh.symm)]
  · intro d hd he
    simp only [delete_contact, Store.remove, hd]
    rw [if_pos he.symm]
  · intro hnone
    simp [delete_contact, Store.remove, hnone]
  · intro hparse d hd
    simp [update_contact, hparse, Store.mutate, hd]

/-- C2 witness: a stale hash makes delete fail with 409 and leave the store
unchanged. -/
theorem C2_witness :
    delete_contact 1 "H1" ⟨[⟨1, ⟨some "A", none, none, none⟩, "H2"⟩], 5⟩ =
      (409, ⟨[⟨1, ⟨some "A", none, none, none⟩, "H2"⟩], 5⟩) :=
  (C2_hash_precondition ⟨[⟨1, ⟨some "A", none, none, none⟩, "H2"⟩], 5⟩ 1 "H1"
      (fun _ => "") ⟨some "A", none, none, none⟩ ⟨some "A", none, none, none⟩).1
    ⟨1, ⟨some "A", none, none, none⟩, "H2"⟩ rfl (by decide)

theorem truthyField_eq_false {o : Option String}
    (h : o = none ∨ o = some "") : truthyField o = false := by
  rcases h with h | h <;> subst h <;> rfl

/-- C7: a contact all of whose fields are null or the empty string is
rejected by the schema validation, so both mutation endpoints fail with
invalidDocument before any store call (the error result carries no store
state, hence no new revision); a contact with at least one non-empty
field value passes the validation. -/
theorem C7_document_validation (hashFn : RawContact → String) (st : Store)
    (key : Nat) (c : RawContact)
    (hname : c.name = none ∨ c.name = some "")
    (hphone : c.phone = none ∨ c.phone = some "")
    (hemail : c.email = none ∨ c.email = some "")
    (haddr : c.address = none ∨ c.address = some "") :
    new_contact hashFn c st = .error .invalidDocument ∧
    update_contact hashFn key c st = .error .invalidDocument ∧
    (∀ (c2 : RawContact) (s : String), s ≠ "" →
      (c2.name = some s ∨ c2.phone = some s ∨ c2.email = some s ∨
        c2.address = some s) →
      parse_contact c2 = .ok c2) := by
  have hval : check_not_empty c = false := by
    rw [check_not_empty, truthyField_eq_false hname, truthyField_eq_false hphone,
      truthyField_eq_false hemail, truthyField_eq_false haddr]
    rfl
  refine ⟨?_, ?_, ?_⟩
  · rw [new_contact, parse_contact, hval]
    rfl
  · rw [update_contact, parse_contact, hval]
    rfl
  · intro c2 s hs hc2
    have hval2 : check_not_empty c2 = true := by
      rw [check_not_empty]
      rcases hc2 with h | h | h | h <;> rw [h] <;>
        simp [truthyField, bne_iff_ne, hs]
    rw [parse_contact, hval2]
    rfl

/-- C7 witness: concrete all-empty contact rejected by both endpoints, and
a concrete one-field contact accepted by the validation. -/
theorem C7_witness :
    new_contact (fun _ => "h") ⟨none, some "", none, none⟩ ⟨[], 0⟩ =
        .error .invalidDocument ∧
    update_contact (fun _ => "h") 1 ⟨none, some "", none, none⟩ ⟨[], 0⟩ =
        .error .invalidDocument ∧
    parse_contact ⟨some "A", none, none, none⟩ = .ok ⟨some "A", none, none, none⟩ := by
  have h := C7_document_validation (fun _ => "h") ⟨[], 0⟩ 1
    ⟨none, some "", none, none⟩ (Or.inl rfl) (Or.inr rfl) (Or.inl rfl) (Or.inl rfl)
  exact ⟨h.1, h.2.1, h.2.2 ⟨some "A", none, none, none⟩ "A" (by decide) (Or.inl rfl)⟩

/-- C8 counterexample: the claim quantifies over every non-empty term
list, but the endpoint communicates the predicate to the store only as the
interpolated filter string, and for the non-empty one-term list whose term
value carries a single quote that string is identical to the one sent for
a clean two-term query over different literals.  The store therefore
returns for the one-term list exactly what it returns for the two-term
query — on the stored document with f holding a and g holding b, that row
— although the document does not match the one-term list's literal term
under AND semantics.  So searchCurrent does return a document not matching
every term, at this concrete input. -/
theorem C8_counterexample :
    ([(⟨"a" ++ sq ++ " and $i=>g eq " ++ sq ++ "b", false, "f"⟩ : QueryTerm)] ≠ []) ∧
    search_contacts_query [⟨"a" ++ sq ++ " and $i=>g eq " ++ sq ++ "b", false, "f"⟩] =
      search_contacts_query [⟨"a", false, "f"⟩, ⟨"b", false, "g"⟩] ∧
    search_contacts [⟨"a", false, "f"⟩, ⟨"b", false, "g"⟩]
        [⟨[("f", JsonValue.str "a"), ("g", JsonValue.str "b")], 1, "h"⟩] =
      .ok [⟨[("f", JsonValue.str "a"), ("g", JsonValue.str "b")], 1, "h"⟩] ∧
    evalFilter [⟨"a" ++ sq ++ " and $i=>g eq " ++ sq ++ "b", false, "f"⟩]
        [("f", JsonValue.str "a"), ("g", JsonValue.str "b")] = false :=
  ⟨by decide, rfl, rfl, by decide⟩

/-- C8 amended: for every non-empty QueryTerm list whose term values and
field names contain no single quote — so the verbatim interpolation is
structure-preserving and the transmitted filter is the AND of the literal
per-term clauses — every row the current-state search returns is one of
the scanned rows and matches every term: an exact term forces the named
field to hold exactly the term string (case-sensitively; a missing or
non-string field never matches), and a fuzzy term forces the field to hold
a string containing the term as a contiguous case-sensitive substring.
The quote-free hypothesis scopes the claim to the term lists on which
evalFilter is the transmitted query's semantics; C8_counterexample shows
the unrestricted claim fails outside it. -/
theorem C8_and_semantics (terms : List QueryTerm) (rows res : List CurrentRow)
    (hne : terms ≠ [])
    (_hclean : ∀ t ∈ terms, strContains t.term sq = false ∧
      strContains t.field sq = false)
    (hok : search_contacts terms rows = .ok res) :
    ∀ r ∈ res, r ∈ rows ∧ ∀ t ∈ terms,
      (t.fuzzy = false →
        List.lookup t.field r.doc = some (JsonValue.str t.term)) ∧
      (t.fuzzy = true → ∃ s, List.lookup t.field r.doc = some (JsonValue.str s) ∧
        strContains s t.term = true) := by
  rw [search_contacts, if_neg (by simpa using hne)] at hok
  have hres : res = rows.filter fun r => evalFilter terms r.doc := by
    cases hok
    rfl
  subst hres
  intro r hr
  rw [List.mem_filter] at hr
  refine ⟨hr.1, ?_⟩
  intro t ht
  have hterm : evalTerm t r.doc = true := by
    have hall := hr.2
    rw [evalFilter, List.all_eq_true] at hall
    exact hall t ht
  cases hlk : List.lookup t.field r.doc with
  | none =>
      simp only [evalTerm, hlk] at hterm
      exact absurd hterm Bool.false_ne_true
  | some v =>
      cases v with
      | str s =>
          simp only [evalTerm, hlk] at hterm
          cases hfz : t.fuzzy with
          | false =>
              rw [hfz, if_neg Bool.false_ne_true] at hterm
              constructor
              · intro _
                rw [eq_of_beq hterm]
              · intro hft
                exact absurd hft Bool.false_ne_true
          | true =>
              rw [hfz, if_pos rfl] at hterm
              constructor
              · intro hff
                exact absurd hff (by decide)
              · intro _
                exact ⟨s, rfl, hterm⟩
      | num n =>
          simp only [evalTerm, hlk] at hterm
          exact absurd hterm Bool.false_ne_true
      | boolean b =>
          simp only [evalTerm, hlk] at hterm
          exact absurd hterm Bool.false_ne_true
      | null =>
          simp only [evalTerm, hlk] at hterm
          exact absurd hterm Bool.false_ne_true

/-- C8 witness: a concrete quote-free one-term exact search's returned row
holds exactly the term in the named field. -/
theorem C8_witness :
    List.lookup "name" [("name", JsonValue.str "Al")] = some (JsonValue.str "Al") :=
  (((C8_and_semantics [⟨"Al", false, "name"⟩]
        [⟨[("name", JsonValue.str "Al")], 1, "h"⟩]
        [⟨[("name", JsonValue.str "Al")], 1, "h"⟩] (by decide) (by decide) rfl)
      ⟨[("name", JsonValue.str "Al")], 1, "h"⟩ (by decide)).2
    ⟨"Al", false, "name"⟩ (by decide)).1 rfl

end Contacts
